import Mathlib

/-!
Verification of the quantity-selection and node-composition subsystem of the
aiida_vasp plugin (`aiida_vasp/parsers/manager.py` and
`aiida_vasp/parsers/node_composer.py`).

The Python code operates on insertion-ordered dictionaries.  We model a Python
dict as an association list `List (String × β)` with Python's semantics:
assignment replaces the value of the first matching key in place, otherwise
appends at the end; `k in d` is key membership; `d.get(k)` returns the stored
value or `None`.  A table whose stored values may themselves be `None` (the
parsed-quantity table) uses `β := Option α` and `pyGet` flattens the two
layers exactly like Python's `dict.get`, which cannot distinguish a missing
key from a stored `None` value.
-/

namespace AiidaVasp

/-- Python `k in d` on a dict modelled as an association list. -/
def pyIn {β : Type} : List (String × β) → String → Bool
  | [], _ => false
  | p :: rest, k => p.1 == k || pyIn rest k

/-- Lookup of the stored value: `some v` iff key `k` is present with value `v`. -/
def pyGetD {β : Type} : List (String × β) → String → Option β
  | [], _ => none
  | p :: rest, k => if p.1 == k then some p.2 else pyGetD rest k

/-- Python `d[k] = v`: replace the first binding of `k` in place, else append. -/
def setKey {β : Type} : List (String × β) → String → β → List (String × β)
  | [], k, v => [(k, v)]
  | p :: rest, k, v => if p.1 == k then (k, v) :: rest else p :: setKey rest k v

/-- Python `d1.update(d2)`. -/
def updateD {β : Type} (d1 d2 : List (String × β)) : List (String × β) :=
  d2.foldl (fun acc kv => setKey acc kv.1 kv.2) d1

/-- A Python dict whose stored values may be `None` (`Option α`). -/
abbrev PyDict (α : Type) : Type := List (String × Option α)

/-- Python `d.get(k)` on a table with nullable values: `none` both when the key
is absent and when the stored value is `None`. -/
def pyGet {α : Type} (d : PyDict α) (k : String) : Option α :=
  (pyGetD d k).join

/-!
## The quantity registry

The registry class lives in `aiida_vasp/parsers/quantity.py`, which is not
part of the sources at hand; only its callers are.
-/

/-- Modelled from the spec: a quantity (`aiida_vasp.parsers.quantity`, not in
the sources): "a named physical result with an `original_name`, a flag
`is_parsable`, and a set of equivalent/alternative quantity names". -/
structure ParsableQuantity where
  name : String
  original_name : String
  is_parsable : Bool

/-- Modelled from the spec: the quantity registry
(`aiida_vasp.parsers.quantity.ParsableQuantities`, not in the sources):
"lookup by name, enumerate equivalents, list required files per quantity".
`get_by_name` returns `none` for unknown names (Python `None`, falsy);
`get_equivalent_quantities` returns the quantity's equivalents in order;
`get_missing_files` returns the required files that were not retrieved. -/
structure ParsableQuantities where
  get_by_name : String → Option ParsableQuantity
  get_equivalent_quantities : String → List ParsableQuantity
  get_missing_files : String → List String

/-- Python exceptions that the embedded code can raise. -/
inductive PyErr where
  | attributeError
  | keyError
  | typeError
  | indexError
  | missingEntryPoint
deriving DecidableEq

/-!
## `node_composer.py`: collecting parsed quantities into composer inputs
-/

/-- The static `NODES_TYPES` table of `node_composer.py`. -/
def NODES_TYPES : List (String × List String) :=
  [("dict", ["total_energies", "maximum_force", "maximum_stress", "symmetries",
             "magnetization", "site_magnetization", "notifications"]),
   ("array.kpoints", ["kpoints"]),
   ("structure", ["structure"]),
   ("array.trajectory", ["trajectory"]),
   ("array.bands", ["eigenvalues", "kpoints", "occupancies"]),
   ("vasp.chargedensity", ["chgcar"]),
   ("vasp.wavefun", ["wavecar"]),
   ("array", [])]

/-- The loop body of `_get_alternative_parsed_quantity`: for every equivalent
whose `original_name` is a key of the parsed table (`original_name in
parsed_quantities`), store that entry's value (Python `.get`, so possibly
`None`) under `quantity.name`.  `quantity` is the result of `get_by_name` and
may be Python `None`; accessing `.name` on it raises `AttributeError`. -/
def altLoop {α : Type} (quantity : Option ParsableQuantity) (parsed : PyDict α) :
    List ParsableQuantity → PyDict α → Except PyErr (PyDict α)
  | [], inputs => .ok inputs
  | pq :: rest, inputs =>
    if pyIn parsed pq.original_name then
      match quantity with
      | none => .error .attributeError
      | some q => altLoop quantity parsed rest (setKey inputs q.name (pyGet parsed pq.original_name))
    else altLoop quantity parsed rest inputs

/-- `_get_alternative_parsed_quantity` of `node_composer.py`. -/
def _get_alternative_parsed_quantity {α : Type} (quantity_name : String)
    (quantity : Option ParsableQuantity) (parsable_quantities : ParsableQuantities)
    (parsed_quantities : PyDict α) : Except PyErr (PyDict α) :=
  altLoop quantity parsed_quantities
    (parsable_quantities.get_equivalent_quantities quantity_name) []

/-- One iteration of the `for quantity_name in _quantity_names` loop of
`_collect_quantity_data`: a direct `parsed_quantities.get` lookup first, the
equivalents on a `None` result. -/
def collectStep {α : Type} (parsable_quantities : ParsableQuantities) (parsed_quantities : PyDict α)
    (inputs : PyDict α) (quantity_name : String) : Except PyErr (PyDict α) :=
  let quantity := parsable_quantities.get_by_name quantity_name
  match pyGet parsed_quantities quantity_name with
  | none =>
    match _get_alternative_parsed_quantity quantity_name quantity parsable_quantities parsed_quantities with
    | .error e => .error e
    | .ok alt => .ok (updateD inputs alt)
  | some v =>
    match quantity with
    | none => .error .attributeError
    | some q => .ok (setKey inputs q.name (some v))

/-- The `for` loop of `_collect_quantity_data` over the quantity names. -/
def collectLoop {α : Type} (parsable_quantities : ParsableQuantities) (parsed_quantities : PyDict α) :
    List String → PyDict α → Except PyErr (PyDict α)
  | [], inputs => .ok inputs
  | n :: rest, inputs =>
    match collectStep parsable_quantities parsed_quantities inputs n with
    | .error e => .error e
    | .ok inputs' => collectLoop parsable_quantities parsed_quantities rest inputs'

/-- `_collect_quantity_data` of `node_composer.py`.  When `quantity_names` is
`None` the names come from `NODES_TYPES.get(node_type)`; a failed lookup (or
`node_type=None`) leaves `_quantity_names = None` and the `for` loop raises
`TypeError`. -/
def _collect_quantity_data {α : Type} (parsable_quantities : ParsableQuantities)
    (parsed_quantities : PyDict α) (node_type : Option String)
    (quantity_names : Option (List String)) : Except PyErr (PyDict α) :=
  match quantity_names with
  | some ns => collectLoop parsable_quantities parsed_quantities ns []
  | none =>
    match node_type with
    | none => .error .typeError
    | some t =>
      match pyGetD NODES_TYPES t with
      | none => .error .typeError
      | some ns => collectLoop parsable_quantities parsed_quantities ns []

/-- `get_node_composer_inputs` of `node_composer.py` for the
`file_parser=None` path (the other path first derives the two tables from a
file-parser object and then calls `_collect_quantity_data` the same way). -/
def get_node_composer_inputs {α : Type} (parsable_quantities : ParsableQuantities)
    (parsed_quantities : PyDict α) (node_type : Option String)
    (quantity_names : Option (List String)) : Except PyErr (PyDict α) :=
  _collect_quantity_data parsable_quantities parsed_quantities node_type quantity_names

/-!
## `manager.py`: `ParserManager` quantity selection

The manager owns a `quantities_to_parse` list and a logger; we model the
manager state as the pair of the list and the sequence of warnings logged so
far.  The `_node` collaborator only contributes its two retrieve lists.
-/

/-- The retrieve-list declarations of the calculation node
(`self._node.get_retrieve_list()` / `get_retrieve_temporary_list()`). -/
structure CalcNode where
  retrieve_list : List String
  retrieve_temporary_list : List String

/-- The warnings `_set_quantities_to_parse` can log, identified by their
payload. -/
inductive PWarning where
  | unknownQuantity (name : String)
  | missingFiles (name : String) (files : List String)
  | notInRetrieveList (file : String)
deriving DecidableEq

/-- `ParserManager._add_quantity_to_parse`: append the `original_name` of the
first quantity with `is_parsable` set to the `quantities_to_parse` list and
report success; report failure leaving the list unchanged. -/
def _add_quantity_to_parse (quantities : List ParsableQuantity) (acc : List String) :
    List String × Bool :=
  match quantities with
  | [] => (acc, false)
  | q :: rest => if q.is_parsable then (acc ++ [q.original_name], true) else _add_quantity_to_parse rest acc

/-- One iteration of the `for quantity_name in quantities_to_parse` loop of
`ParserManager._set_quantities_to_parse`. -/
def processQuantityName (parsable_quantities : ParsableQuantities) (node : CalcNode)
    (st : List String × List PWarning) (quantity_name : String) : List String × List PWarning :=
  match parsable_quantities.get_by_name quantity_name with
  | none => (st.1, st.2 ++ [PWarning.unknownQuantity quantity_name])
  | some _ =>
    match _add_quantity_to_parse (parsable_quantities.get_equivalent_quantities quantity_name) st.1 with
    | (tp, true) => (tp, st.2)
    | (tp, false) =>
      let missing_files := parsable_quantities.get_missing_files quantity_name
      let retrieve_list := node.retrieve_temporary_list ++ node.retrieve_list
      let not_in_retrieve_list :=
        missing_files.foldl (fun acc item => if retrieve_list.contains item then acc else some item) none
      let ws := st.2 ++ [PWarning.missingFiles quantity_name missing_files]
      match not_in_retrieve_list with
      | some f => (tp, ws ++ [PWarning.notInRetrieveList f])
      | none => (tp, ws)

/-- The loop of `ParserManager._set_quantities_to_parse`. -/
def setLoop (parsable_quantities : ParsableQuantities) (node : CalcNode) :
    List String → (List String × List PWarning) → List String × List PWarning
  | [], st => st
  | n :: rest, st =>
    setLoop parsable_quantities node rest (processQuantityName parsable_quantities node st n)

/-- `ParserManager._set_quantities_to_parse` (as called from `setup`): reset
the list, then process every requested name in order. -/
def _set_quantities_to_parse (parsable_quantities : ParsableQuantities) (node : CalcNode)
    (quantities_to_parse : List String) : List String × List PWarning :=
  setLoop parsable_quantities node quantities_to_parse ([], [])

/-!
## `node_composer.py`: `NodeComposer`

Parsed values handed to `compose` are arbitrary Python objects; we model the
ones the composers inspect: numbers (floats modelled as exact rationals —
every literal appearing in the claims is exactly representable), strings,
lists, dicts, the k-point objects exposing `get_point`/`get_weight`/
`get_direct`, and `None`.
-/

/-- A parsed Python value as consumed by the composer routines. -/
inductive Value where
  | num (q : Rat)
  | str (s : String)
  | list (elems : List Value)
  | dict (entries : List (String × Value))
  | kpt (point : List Rat) (weight : Option Rat) (direct : Bool)
  | nil

/-- Python `v == "s"` for a literal string `"s"`: true only when `v` is that
string, false (no exception) on any other value. -/
def Value.isStr : Value → String → Bool
  | Value.str s, t => s == t
  | _, _ => false

/-- The state of an AiiDA `KpointsData` node: fresh, after `set_kpoints`, or
after `set_kpoints_mesh` (whose arguments come from `dict.get` and may be
Python `None`, hence the `Option`s). -/
inductive KpointsData where
  | empty
  | explicitK (points : List (List Rat)) (weights : Option (List (Option Rat))) (cartesian : Bool)
  | meshK (mesh : Option Value) (offset : Option Value)

/-- The AiiDA data nodes the composers build, by their visible content. -/
inductive Node where
  | dictN (content : List (String × Value))
  | structureN (cell : Option Value) (sites : List (Value × Value × Value))
  | arrayN (arrays : List (String × Value))
  | trajectoryN (arrays : List (String × Value)) (attributes : List (String × Value))
  | kpointsN (kdata : KpointsData)
  | bandsN (kpoints_data : Node) (bands : Value) (occupations : Value)
  | wavefunN (file : Value)
  | chargedensityN (file : Value)

/-- The node-type tags for which the host framework can produce a data class:
exactly the keys of `NODES_TYPES`. -/
def registeredDataTypes : List String :=
  ["dict", "structure", "array", "array.kpoints", "array.trajectory",
   "array.bands", "vasp.chargedensity", "vasp.wavefun"]

/-- Modelled from the spec: `get_data_class`
(`aiida_vasp.utils.aiida_utils`, not in the sources) resolves a node-type tag
to the host framework's data class by an entry-point lookup; the node types
this code composes are those of the node-type descriptor table, and resolving
any other tag is a fatal lookup failure. -/
def get_data_class (data_type : String) : Except PyErr Unit :=
  if data_type ∈ registeredDataTypes then .ok () else .error .missingEntryPoint

/-- Python `d[k]` on a dict: the value, or `KeyError`. -/
def pyIndex {β : Type} (d : List (String × β)) (k : String) : Except PyErr β :=
  match pyGetD d k with
  | some v => .ok v
  | none => .error .keyError

/-- `NodeComposer._compose_dict`: a fresh dict node updated with `inputs`. -/
def _compose_dict (node_type : String) (inputs : List (String × Value)) : Except PyErr Node :=
  match get_data_class node_type with
  | .error e => .error e
  | .ok _ => .ok (Node.dictN (updateD [] inputs))

/-- The inner `for site in inputs[key]['sites']` loop of
`_compose_structure`: each site dict contributes `position`, `symbol` and
`kind_name` to `append_atom`. -/
def sitesLoop (sites : List Value) (st : Option Value × List (Value × Value × Value)) :
    Except PyErr (Option Value × List (Value × Value × Value)) :=
  match sites with
  | [] => .ok st
  | site :: rest =>
    match site with
    | Value.dict sd =>
      match pyGetD sd "position" with
      | none => .error .keyError
      | some pos =>
        match pyGetD sd "symbol" with
        | none => .error .keyError
        | some sym =>
          match pyGetD sd "kind_name" with
          | none => .error .keyError
          | some kn => sitesLoop rest (st.1, st.2 ++ [(pos, sym, kn)])
    | _ => .error .typeError

/-- The `for key in inputs` loop of `_compose_structure`: `set_cell` from
`inputs[key]['unitcell']`, then append every site. -/
def structureLoop (entries : List (String × Value)) (st : Option Value × List (Value × Value × Value)) :
    Except PyErr (Option Value × List (Value × Value × Value)) :=
  match entries with
  | [] => .ok st
  | entry :: rest =>
    match entry.2 with
    | Value.dict d =>
      match pyGetD d "unitcell" with
      | none => .error .keyError
      | some cell =>
        match pyGetD d "sites" with
        | none => .error .keyError
        | some sv =>
          match sv with
          | Value.list sites =>
            match sitesLoop sites (some cell, st.2) with
            | .error e => .error e
            | .ok st' => structureLoop rest st'
          | _ => .error .typeError
    | _ => .error .typeError

/-- `NodeComposer._compose_structure`. -/
def _compose_structure (node_type : String) (inputs : List (String × Value)) : Except PyErr Node :=
  match get_data_class node_type with
  | .error e => .error e
  | .ok _ =>
    match structureLoop inputs (none, []) with
    | .error e => .error e
    | .ok st => .ok (Node.structureN st.1 st.2)

/-- The `for item in inputs` loop of `_compose_array`: `set_array` for every
key/value of `inputs[item]` (`.items()` on a non-dict raises). -/
def arrayLoop (entries : List (String × Value)) (arrays : List (String × Value)) :
    Except PyErr (List (String × Value)) :=
  match entries with
  | [] => .ok arrays
  | entry :: rest =>
    match entry.2 with
    | Value.dict d => arrayLoop rest (d.foldl (fun a kv => setKey a kv.1 kv.2) arrays)
    | _ => .error .attributeError

/-- `NodeComposer._compose_array`. -/
def _compose_array (node_type : String) (inputs : List (String × Value)) : Except PyErr Node :=
  match get_data_class node_type with
  | .error e => .error e
  | .ok _ =>
    match arrayLoop inputs [] with
    | .error e => .error e
    | .ok arrays => .ok (Node.arrayN arrays)

/-- The loop of `_compose_array_trajectory`: like `_compose_array` but the
`symbols` key is stored as an attribute instead of an array. -/
def trajectoryLoop (entries : List (String × Value))
    (st : List (String × Value) × List (String × Value)) :
    Except PyErr (List (String × Value) × List (String × Value)) :=
  match entries with
  | [] => .ok st
  | entry :: rest =>
    match entry.2 with
    | Value.dict d =>
      trajectoryLoop rest
        (d.foldl (fun a kv => if kv.1 == "symbols" then (a.1, setKey a.2 kv.1 kv.2)
                              else (setKey a.1 kv.1 kv.2, a.2)) st)
    | _ => .error .attributeError

/-- `NodeComposer._compose_array_trajectory`. -/
def _compose_array_trajectory (node_type : String) (inputs : List (String × Value)) :
    Except PyErr Node :=
  match get_data_class node_type with
  | .error e => .error e
  | .ok _ =>
    match trajectoryLoop inputs ([], []) with
    | .error e => .error e
    | .ok st => .ok (Node.trajectoryN st.1 st.2)

/-- Extract `get_point().tolist()` and `get_weight()` from every element of
the `points` list; a non-k-point element raises `AttributeError`. -/
def kptData : List Value → Except PyErr (List (List Rat × Option Rat))
  | [] => .ok []
  | Value.kpt p w _ :: rest =>
    match kptData rest with
    | .error e => .error e
    | .ok ps => .ok ((p, w) :: ps)
  | _ :: _ => .error .attributeError

/-- The body of the `for key in inputs` loop of `_compose_array_kpoints`,
applied to `inputs[key]`: branch on `mode` (`explicit` builds the point and
weight lists, with `weights = None` when the first weight is `None`;
`automatic` stores `divisions`/`shifts` as mesh/offset; any other mode leaves
the node untouched). -/
def kpointsStep (kdata : KpointsData) (v : Value) : Except PyErr KpointsData :=
  match v with
  | Value.dict d =>
    match pyGetD d "mode" with
    | none => .error .keyError
    | some mode =>
      let explicitRes : Except PyErr KpointsData :=
        if mode.isStr "explicit" then
          match pyGetD d "points" with
          | some (Value.list (k0 :: krest)) =>
            match k0 with
            | Value.kpt _ _ direct0 =>
              match kptData (k0 :: krest) with
              | .error e => .error e
              | .ok pts =>
                let kpoint_list := pts.map (fun p => p.1)
                let weights := pts.map (fun p => p.2)
                let weightsArg : Option (List (Option Rat)) :=
                  match weights with
                  | Option.none :: _ => Option.none
                  | _ => some weights
                .ok (KpointsData.explicitK kpoint_list weightsArg (!direct0))
            | _ => .error .attributeError
          | some (Value.list []) => .error .indexError
          | _ => .error .typeError
        else .ok kdata
      match explicitRes with
      | .error e => .error e
      | .ok kdata1 =>
        if mode.isStr "automatic" then
          .ok (KpointsData.meshK (pyGetD d "divisions") (pyGetD d "shifts"))
        else .ok kdata1
  | _ => .error .typeError

/-- The `for key in inputs` loop of `_compose_array_kpoints`. -/
def kpointsLoop (entries : List (String × Value)) (kdata : KpointsData) :
    Except PyErr KpointsData :=
  match entries with
  | [] => .ok kdata
  | entry :: rest =>
    match kpointsStep kdata entry.2 with
    | .error e => .error e
    | .ok kdata' => kpointsLoop rest kdata'

/-- `NodeComposer._compose_array_kpoints`. -/
def _compose_array_kpoints (node_type : String) (inputs : List (String × Value)) :
    Except PyErr Node :=
  match get_data_class node_type with
  | .error e => .error e
  | .ok _ =>
    match kpointsLoop inputs KpointsData.empty with
    | .error e => .error e
    | .ok kdata => .ok (Node.kpointsN kdata)

/-- `NodeComposer._compose_array_bands`: build the k-points node from
`inputs['kpoints']` via `_compose_array_kpoints`, attach it with
`set_kpointsdata`, then `set_bands(inputs['eigenvalues'],
occupations=inputs['occupancies'])`. -/
def _compose_array_bands (node_type : String) (inputs : List (String × Value)) :
    Except PyErr Node :=
  match get_data_class node_type with
  | .error e => .error e
  | .ok _ =>
    match pyIndex inputs "kpoints" with
    | .error e => .error e
    | .ok kv =>
      match _compose_array_kpoints "array.kpoints" [("kpoints", kv)] with
      | .error e => .error e
      | .ok kpoints =>
        match pyIndex inputs "eigenvalues" with
        | .error e => .error e
        | .ok ev =>
          match pyIndex inputs "occupancies" with
          | .error e => .error e
          | .ok ov => .ok (Node.bandsN kpoints ev ov)

/-- The loop of `_compose_vasp_wavefun`: `node` starts as Python `None` and is
reassigned to a fresh node built from each entry's value in turn, so an empty
inputs dict returns `None` and otherwise the last entry wins. -/
def wavefunLoop (node_type : String) (entries : List (String × Value)) (node : Option Node) :
    Except PyErr (Option Node) :=
  match entries with
  | [] => .ok node
  | entry :: rest =>
    match get_data_class node_type with
    | .error e => .error e
    | .ok _ => wavefunLoop node_type rest (some (Node.wavefunN entry.2))

/-- `NodeComposer._compose_vasp_wavefun`. -/
def _compose_vasp_wavefun (node_type : String) (inputs : List (String × Value)) :
    Except PyErr (Option Node) :=
  wavefunLoop node_type inputs none

/-- The loop of `_compose_vasp_chargedensity` (same shape as the wave-function
composer). -/
def chargedensityLoop (node_type : String) (entries : List (String × Value)) (node : Option Node) :
    Except PyErr (Option Node) :=
  match entries with
  | [] => .ok node
  | entry :: rest =>
    match get_data_class node_type with
    | .error e => .error e
    | .ok _ => chargedensityLoop node_type rest (some (Node.chargedensityN entry.2))

/-- `NodeComposer._compose_vasp_chargedensity`. -/
def _compose_vasp_chargedensity (node_type : String) (inputs : List (String × Value)) :
    Except PyErr (Option Node) :=
  chargedensityLoop node_type inputs none

/-- `node_type.replace('.', '_')`. -/
def dotToUnderscore (s : String) : String :=
  String.mk (s.data.map (fun c => if c == '.' then '_' else c))

/-- `NodeComposer.compose`: `getattr(cls, '_compose_' + node_type.replace('.',
'_'))(node_type, inputs)`.  The attribute lookup finds exactly the eight
`_compose_*` methods; any other translated name raises `AttributeError`.  The
wave-function and charge-density composers can return Python `None`, hence the
`Option Node` result. -/
def compose (node_type : String) (inputs : List (String × Value)) : Except PyErr (Option Node) :=
  match dotToUnderscore node_type with
  | "dict" => Except.map some (_compose_dict node_type inputs)
  | "structure" => Except.map some (_compose_structure node_type inputs)
  | "array" => Except.map some (_compose_array node_type inputs)
  | "array_kpoints" => Except.map some (_compose_array_kpoints node_type inputs)
  | "array_trajectory" => Except.map some (_compose_array_trajectory node_type inputs)
  | "array_bands" => Except.map some (_compose_array_bands node_type inputs)
  | "vasp_wavefun" => _compose_vasp_wavefun node_type inputs
  | "vasp_chargedensity" => _compose_vasp_chargedensity node_type inputs
  | _ => .error .attributeError

/-!
## Concrete fixtures

Small registries, parsed tables and calculation nodes used to instantiate
the theorems below at concrete inputs.
-/

/-- A registry knowing one quantity `q` whose single equivalent is `e`. -/
def pqsQE : ParsableQuantities where
  get_by_name := fun n => if n == "q" then some ⟨"q", "q", true⟩ else none
  get_equivalent_quantities := fun n => if n == "q" then [⟨"e", "e", true⟩] else []
  get_missing_files := fun _ => []

/-- A parsed table in which the equivalent `e` is present with value `None`. -/
def parsedNullE : PyDict Nat := [("e", none)]

/-- A parsed table in which the equivalent `e` is present with value `5`. -/
def parsedFiveE : PyDict Nat := [("e", some 5)]

/-- A registry knowing nothing. -/
def pqsEmpty : ParsableQuantities where
  get_by_name := fun _ => none
  get_equivalent_quantities := fun _ => []
  get_missing_files := fun _ => []

/-- A registry knowing one quantity `q` with two equivalents, the first not
parsable and the second parsable under original name `alt`. -/
def pqsTwoEquiv : ParsableQuantities where
  get_by_name := fun n => if n == "q" then some ⟨"q", "q", false⟩ else none
  get_equivalent_quantities := fun n =>
    if n == "q" then [⟨"q", "q", false⟩, ⟨"alt", "alt", true⟩] else []
  get_missing_files := fun _ => []

/-- A registry knowing one unparsable quantity `q` that requires the two
missing files `A` and `B`. -/
def pqsUnparsable : ParsableQuantities where
  get_by_name := fun n => if n == "q" then some ⟨"q", "q", false⟩ else none
  get_equivalent_quantities := fun n => if n == "q" then [⟨"q", "q", false⟩] else []
  get_missing_files := fun n => if n == "q" then ["A", "B"] else []

/-- A calculation node with empty retrieve lists. -/
def nodeNoRetrieve : CalcNode where
  retrieve_list := []
  retrieve_temporary_list := []

/-- A well-formed automatic-mode k-points input value. -/
def kpointsAuto222 : Value :=
  Value.dict [("mode", Value.str "automatic"),
    ("divisions", Value.list [Value.num 2, Value.num 2, Value.num 2]),
    ("shifts", Value.list [Value.num 0, Value.num 0, Value.num 0])]

/-- A complete inputs table for composing an `array.bands` node. -/
def bandsInputs : List (String × Value) :=
  [("kpoints", kpointsAuto222),
   ("eigenvalues", Value.list [Value.num 1]),
   ("occupancies", Value.list [Value.num 1])]

/-!
## Theorems

First the association-list lemmas about the Python dict model, then one
theorem per claim.
-/

theorem pyIn_setKey {β : Type} (d : List (String × β)) (k k' : String) (v : β) :
    pyIn (setKey d k v) k' = (k == k' || pyIn d k') := by
  induction d with
  | nil => simp [pyIn, setKey]
  | cons p rest ih =>
    simp only [setKey]
    by_cases hp : (p.1 == k) = true
    · rw [if_pos hp]
      have hpk : p.1 = k := eq_of_beq hp
      subst hpk
      simp only [pyIn]
      cases hq : (p.1 == k') <;> simp
    · rw [if_neg hp]
      simp only [pyIn]
      rw [ih]
      cases hq : (p.1 == k') <;> cases hr : (k == k') <;> simp

theorem pyGetD_setKey {β : Type} (d : List (String × β)) (k k' : String) (v : β) :
    pyGetD (setKey d k v) k' = if (k == k') = true then some v else pyGetD d k' := by
  induction d with
  | nil =>
    by_cases hq : (k == k') = true
    · simp [setKey, pyGetD, hq]
    · simp [setKey, pyGetD, hq]
  | cons p rest ih =>
    by_cases hp : (p.1 == k) = true
    · have hpk : p.1 = k := eq_of_beq hp
      subst hpk
      by_cases hq : (p.1 == k') = true
      · simp [setKey, pyGetD, hq]
      · simp [setKey, pyGetD, hq]
    · by_cases hq : (p.1 == k') = true
      · have hkk : ¬ (k == k') = true := by
          intro h
          apply hp
          have h1 : p.1 = k' := eq_of_beq hq
          have h2 : k = k' := eq_of_beq h
          rw [h1, h2]
          exact beq_self_eq_true k'
        simp [setKey, pyGetD, hp, hq, hkk]
      · simp [setKey, pyGetD, hp, hq, ih]

theorem setKey_setKey {β : Type} (d : List (String × β)) (k : String) (v v' : β) :
    setKey (setKey d k v) k v' = setKey d k v' := by
  induction d with
  | nil => simp [setKey]
  | cons p rest ih =>
    by_cases hp : (p.1 == k) = true
    · simp [setKey, hp]
    · simp [setKey, hp, ih]

theorem pyIn_updateD {β : Type} (d2 d1 : List (String × β)) (k : String) :
    pyIn (updateD d1 d2) k = (pyIn d1 k || pyIn d2 k) := by
  induction d2 generalizing d1 with
  | nil => simp [updateD, pyIn]
  | cons p rest ih =>
    simp only [updateD, List.foldl_cons] at ih ⊢
    rw [ih (setKey d1 p.1 p.2), pyIn_setKey]
    simp only [pyIn]
    cases h1 : (p.1 == k) <;> cases h2 : pyIn d1 k <;> cases h3 : pyIn rest k <;> simp

theorem updateD_nil_single {β : Type} (k : String) (v : β) :
    updateD [] [(k, v)] = [(k, v)] := by
  simp [updateD, setKey]

theorem gdc_wavefun : get_data_class "vasp.wavefun" = .ok () := rfl

theorem gdc_chargedensity : get_data_class "vasp.chargedensity" = .ok () := rfl

theorem wavefunLoop_append_last (entries : List (String × Value)) (node : Option Node)
    (k : String) (v : Value) :
    wavefunLoop "vasp.wavefun" (entries ++ [(k, v)]) node = .ok (some (Node.wavefunN v)) := by
  induction entries generalizing node with
  | nil => rfl
  | cons e rest ih =>
    simp only [List.cons_append, wavefunLoop, gdc_wavefun]
    exact ih (some (Node.wavefunN e.2))

theorem chargedensityLoop_append_last (entries : List (String × Value)) (node : Option Node)
    (k : String) (v : Value) :
    chargedensityLoop "vasp.chargedensity" (entries ++ [(k, v)]) node =
      .ok (some (Node.chargedensityN v)) := by
  induction entries generalizing node with
  | nil => rfl
  | cons e rest ih =>
    simp only [List.cons_append, chargedensityLoop, gdc_chargedensity]
    exact ih (some (Node.chargedensityN e.2))

/-- C8: composing node type `array.kpoints` from an input with mode
`automatic`, divisions `[2,2,2]` and shifts `[0,0,0]` returns a mesh-based
k-points node whose mesh is `[2,2,2]` and whose offset is `[0,0,0]`. -/
theorem compose_kpoints_automatic_mesh :
    compose "array.kpoints" [("kpoints", kpointsAuto222)] =
      Except.ok (some (Node.kpointsN (KpointsData.meshK
        (some (Value.list [Value.num 2, Value.num 2, Value.num 2]))
        (some (Value.list [Value.num 0, Value.num 0, Value.num 0]))))) := rfl

/-- C9: composing node type `dict` from the inputs table
`{"total_energies": {"energy": -1.0}}` returns a node whose stored dictionary
content equals that inputs table. -/
theorem compose_dict_total_energies :
    compose "dict" [("total_energies", Value.dict [("energy", Value.num (-1))])] =
      Except.ok (some (Node.dictN
        [("total_energies", Value.dict [("energy", Value.num (-1))])])) := rfl

/-- C10: composing `vasp.wavefun` or `vasp.chargedensity` from an empty inputs
table returns Python `None` rather than a data node; from a single-entry table
it returns a node built from that entry's value; and in general the node is
built from the value of the last key iterated. -/
theorem compose_wavefun_chargedensity_last_entry :
    (compose "vasp.wavefun" [] = Except.ok none ∧
     compose "vasp.chargedensity" [] = Except.ok none) ∧
    (∀ k v, compose "vasp.wavefun" [(k, v)] = Except.ok (some (Node.wavefunN v)) ∧
       compose "vasp.chargedensity" [(k, v)] = Except.ok (some (Node.chargedensityN v))) ∧
    (∀ entries k v,
       compose "vasp.wavefun" (entries ++ [(k, v)]) = Except.ok (some (Node.wavefunN v)) ∧
       compose "vasp.chargedensity" (entries ++ [(k, v)]) =
         Except.ok (some (Node.chargedensityN v))) := by
  refine ⟨⟨rfl, rfl⟩, ?_, ?_⟩
  · intro k v
    exact ⟨rfl, rfl⟩
  · intro entries k v
    constructor
    · show _compose_vasp_wavefun "vasp.wavefun" (entries ++ [(k, v)]) = _
      exact wavefunLoop_append_last entries none k v
    · show _compose_vasp_chargedensity "vasp.chargedensity" (entries ++ [(k, v)]) = _
      exact chargedensityLoop_append_last entries none k v

/-- C6 counterexample: the tag `vasp_wavefun` is not one of the supported
tags, yet `compose` raises no exception on it: with an empty inputs table the
dispatch reaches `_compose_vasp_wavefun` (the underscore translation of the
tag names that method) and returns Python `None`. -/
theorem compose_unknown_tag_no_error :
    compose "vasp_wavefun" [] = Except.ok none ∧
    "vasp_wavefun" ∉ registeredDataTypes := by
  exact ⟨rfl, by decide⟩

/-- C6 amended: for every node-type tag outside the supported set, `compose`
never returns a data node: it raises an unhandled lookup error (an attribute
lookup failure when the dot-to-underscore translation of the tag names no
composer method, an entry-point lookup failure from the data-class resolution
otherwise), except that a tag whose translation names the wave-function or
charge-density composer returns Python `None` without error when the inputs
table is empty. -/
theorem compose_unknown_tag_fails (node_type : String) (inputs : List (String × Value))
    (h : node_type ∉ registeredDataTypes) :
    (∃ e, compose node_type inputs = Except.error e) ∨
      compose node_type inputs = Except.ok none := by
  have hgdc : get_data_class node_type = Except.error PyErr.missingEntryPoint := by
    simp [get_data_class, h]
  unfold compose
  split
  · exact Or.inl ⟨PyErr.missingEntryPoint, by simp [_compose_dict, hgdc, Except.map]⟩
  · exact Or.inl ⟨PyErr.missingEntryPoint, by simp [_compose_structure, hgdc, Except.map]⟩
  · exact Or.inl ⟨PyErr.missingEntryPoint, by simp [_compose_array, hgdc, Except.map]⟩
  · exact Or.inl ⟨PyErr.missingEntryPoint, by simp [_compose_array_kpoints, hgdc, Except.map]⟩
  · exact Or.inl ⟨PyErr.missingEntryPoint, by simp [_compose_array_trajectory, hgdc, Except.map]⟩
  · exact Or.inl ⟨PyErr.missingEntryPoint, by simp [_compose_array_bands, hgdc, Except.map]⟩
  · cases inputs with
    | nil => exact Or.inr rfl
    | cons e rest =>
      exact Or.inl ⟨PyErr.missingEntryPoint, by simp [_compose_vasp_wavefun, wavefunLoop, hgdc]⟩
  · cases inputs with
    | nil => exact Or.inr rfl
    | cons e rest =>
      exact Or.inl ⟨PyErr.missingEntryPoint,
        by simp [_compose_vasp_chargedensity, chargedensityLoop, hgdc]⟩
  · exact Or.inl ⟨PyErr.attributeError, rfl⟩

/-- C6 amended, witness at the concrete tag `foo` with empty inputs. -/
theorem compose_unknown_tag_fails_witness :
    "foo" ∉ registeredDataTypes ∧
    ((∃ e, compose "foo" [] = Except.error e) ∨ compose "foo" [] = Except.ok none) :=
  ⟨by decide, compose_unknown_tag_fails "foo" [] (by decide)⟩

/-- C7: when the inputs table has parsed values for `kpoints`, `eigenvalues`
and `occupancies` and `array.bands` composition returns a node, that node is a
bands node built by first composing a k-points node and then attaching the
eigenvalues and occupancies, and its k-points sub-node equals the node
obtained by independently composing `array.kpoints` from the same `kpoints`
input. -/
theorem compose_bands_kpoints_subnode (inputs : List (String × Value)) (kv : Value) (n : Node)
    (hk : pyGetD inputs "kpoints" = some kv)
    (h : compose "array.bands" inputs = Except.ok (some n)) :
    ∃ kp ev ov, n = Node.bandsN kp ev ov ∧
      pyGetD inputs "eigenvalues" = some ev ∧
      pyGetD inputs "occupancies" = some ov ∧
      compose "array.kpoints" [("kpoints", kv)] = Except.ok (some kp) := by
  rw [show compose "array.bands" inputs =
      Except.map some (_compose_array_bands "array.bands" inputs) from rfl] at h
  rw [show compose "array.kpoints" [("kpoints", kv)] =
      Except.map some (_compose_array_kpoints "array.kpoints" [("kpoints", kv)]) from rfl]
  simp only [_compose_array_bands] at h
  split at h
  · rename_i e heq
    rw [show get_data_class "array.bands" = Except.ok () from rfl] at heq
    cases heq
  · split at h
    · rename_i e heq
      simp [pyIndex, hk] at heq
    · rename_i kv' heq
      have hkv : kv = kv' := by simpa [pyIndex, hk] using heq
      subst hkv
      split at h
      · simp [Except.map] at h
      · rename_i kp heq2
        split at h
        · simp [Except.map] at h
        · rename_i ev heq3
          split at h
          · simp [Except.map] at h
          · rename_i ov heq4
            simp only [Except.map, Except.ok.injEq, Option.some.injEq] at h
            refine ⟨kp, ev, ov, h.symm, ?_, ?_, by rw [heq2]; rfl⟩
            · cases hgev : pyGetD inputs "eigenvalues" with
              | none => simp [pyIndex, hgev] at heq3
              | some w =>
                have : w = ev := by simpa [pyIndex, hgev] using heq3
                exact congrArg some this
            · cases hgov : pyGetD inputs "occupancies" with
              | none => simp [pyIndex, hgov] at heq4
              | some w =>
                have : w = ov := by simpa [pyIndex, hgov] using heq4
                exact congrArg some this

/-- C7, witness at a concrete complete inputs table. -/
theorem compose_bands_kpoints_subnode_witness :
    ∃ kp ev ov,
      Node.bandsN (Node.kpointsN (KpointsData.meshK
          (some (Value.list [Value.num 2, Value.num 2, Value.num 2]))
          (some (Value.list [Value.num 0, Value.num 0, Value.num 0]))))
        (Value.list [Value.num 1]) (Value.list [Value.num 1]) = Node.bandsN kp ev ov ∧
      pyGetD bandsInputs "eigenvalues" = some ev ∧
      pyGetD bandsInputs "occupancies" = some ov ∧
      compose "array.kpoints" [("kpoints", kpointsAuto222)] = Except.ok (some kp) :=
  compose_bands_kpoints_subnode bandsInputs kpointsAuto222 _ rfl rfl

/-- C3: a requested quantity name unknown to the registry is skipped by
`_set_quantities_to_parse`: from any intermediate state the
quantities-to-parse list is unchanged, exactly one warning is logged, no
exception is raised (the embedded loop is a total function), and the
remaining requested names are processed from the same list state. -/
theorem unknown_quantity_skipped (pqs : ParsableQuantities) (node : CalcNode)
    (n : String) (st : List String × List PWarning) (rest : List String)
    (h : pqs.get_by_name n = none) :
    setLoop pqs node (n :: rest) st =
      setLoop pqs node rest (st.1, st.2 ++ [PWarning.unknownQuantity n]) := by
  simp only [setLoop, processQuantityName, h]

/-- C3, witness: the empty registry knows no name, so `x` is skipped with a
warning and processing continues with `y`. -/
theorem unknown_quantity_skipped_witness :
    pqsEmpty.get_by_name "x" = none ∧
    setLoop pqsEmpty nodeNoRetrieve ["x", "y"] ([], []) =
      setLoop pqsEmpty nodeNoRetrieve ["y"] ([], [PWarning.unknownQuantity "x"]) :=
  ⟨rfl, unknown_quantity_skipped pqsEmpty nodeNoRetrieve "x" ([], []) ["y"] rfl⟩

theorem add_first_parsable (qs : List ParsableQuantity) (acc : List String) :
    _add_quantity_to_parse qs acc =
      match qs.find? (fun q => q.is_parsable) with
      | some p => (acc ++ [p.original_name], true)
      | none => (acc, false) := by
  induction qs with
  | nil => rfl
  | cons q rest ih =>
    by_cases hq : q.is_parsable = true
    · rw [List.find?_cons_of_pos _ hq]
      simp [_add_quantity_to_parse, hq]
    · rw [List.find?_cons_of_neg _ (by simpa using hq)]
      simp only [_add_quantity_to_parse]
      rw [if_neg hq, ih]

/-- C4: for a requested quantity known to the registry,
`_set_quantities_to_parse` appends exactly one name — the `original_name` of
the first quantity, in `get_equivalent_quantities` order, whose `is_parsable`
flag is true — before continuing with the remaining names. -/
theorem known_quantity_first_parsable (pqs : ParsableQuantities) (node : CalcNode)
    (n : String) (q p : ParsableQuantity) (st : List String × List PWarning) (rest : List String)
    (hq : pqs.get_by_name n = some q)
    (hp : (pqs.get_equivalent_quantities n).find? (fun x => x.is_parsable) = some p) :
    setLoop pqs node (n :: rest) st =
      setLoop pqs node rest (st.1 ++ [p.original_name], st.2) := by
  simp only [setLoop, processQuantityName, hq]
  rw [add_first_parsable, hp]

/-- C4, witness: `q` itself is not parsable but its second equivalent is, so
its original name `alt` is the one appended. -/
theorem known_quantity_first_parsable_witness :
    pqsTwoEquiv.get_by_name "q" = some ⟨"q", "q", false⟩ ∧
    (pqsTwoEquiv.get_equivalent_quantities "q").find? (fun x => x.is_parsable) =
      some ⟨"alt", "alt", true⟩ ∧
    setLoop pqsTwoEquiv nodeNoRetrieve ["q"] ([], []) =
      setLoop pqsTwoEquiv nodeNoRetrieve [] ([] ++ ["alt"], []) :=
  ⟨rfl, rfl, known_quantity_first_parsable pqsTwoEquiv nodeNoRetrieve "q"
    ⟨"q", "q", false⟩ ⟨"alt", "alt", true⟩ ([], []) [] rfl rfl⟩

theorem foldl_last_not_retrieved (rl : List String) (l : List String) (init : Option String) :
    l.foldl (fun acc item => if rl.contains item then acc else some item) init =
      match l.reverse.find? (fun f => !rl.contains f) with
      | some f => some f
      | none => init := by
  induction l generalizing init with
  | nil => rfl
  | cons a l ih =>
    simp only [List.foldl_cons, List.reverse_cons]
    rw [ih, List.find?_append]
    by_cases ha : rl.contains a = true
    · rw [if_pos ha]
      cases hf : l.reverse.find? (fun f => !rl.contains f) with
      | some f => simp
      | none => simp at ha; simp [List.find?, ha]
    · rw [if_neg ha]
      cases hf : l.reverse.find? (fun f => !rl.contains f) with
      | some f => simp
      | none => simp at ha; simp [List.find?, ha]

/-- C5 counterexample: the unparsable quantity `q` requires the two files `A`
and `B`, both missing and neither in any retrieve list, but only the last one
(`B`) is logged as never scheduled for retrieval — no warning names `A`. -/
theorem missing_files_only_last_logged :
    _set_quantities_to_parse pqsUnparsable nodeNoRetrieve ["q"] =
      ([], [PWarning.missingFiles "q" ["A", "B"], PWarning.notInRetrieveList "B"]) ∧
    PWarning.notInRetrieveList "A" ∉
      (_set_quantities_to_parse pqsUnparsable nodeNoRetrieve ["q"]).2 := by
  exact ⟨rfl, by decide⟩

/-- C5 amended: when neither a requested quantity nor any of its equivalents
is parsable, setup logs one warning carrying the full set of missing required
files, and at most one never-scheduled warning, naming only the last missing
file (in missing-files order) that appears in neither the temporary nor the
permanent retrieve list — earlier such files are not logged. -/
theorem unparsable_quantity_warnings (pqs : ParsableQuantities) (node : CalcNode)
    (n : String) (q : ParsableQuantity) (st : List String × List PWarning) (rest : List String)
    (hq : pqs.get_by_name n = some q)
    (hnp : (pqs.get_equivalent_quantities n).find? (fun x => x.is_parsable) = none) :
    setLoop pqs node (n :: rest) st =
      setLoop pqs node rest (st.1,
        st.2 ++ PWarning.missingFiles n (pqs.get_missing_files n) ::
          (match (pqs.get_missing_files n).reverse.find?
              (fun f => !(node.retrieve_temporary_list ++ node.retrieve_list).contains f) with
           | some f => [PWarning.notInRetrieveList f]
           | none => [])) := by
  have hadd : _add_quantity_to_parse (pqs.get_equivalent_quantities n) st.1 = (st.1, false) := by
    rw [add_first_parsable, hnp]
  simp only [setLoop, processQuantityName, hq, hadd, foldl_last_not_retrieved]
  cases hf : (pqs.get_missing_files n).reverse.find?
      (fun f => !(node.retrieve_temporary_list ++ node.retrieve_list).contains f) with
  | some f => simp
  | none => simp

/-- C5 amended, witness: concrete unparsable quantity with two missing
unscheduled files. -/
theorem unparsable_quantity_warnings_witness :
    pqsUnparsable.get_by_name "q" = some ⟨"q", "q", false⟩ ∧
    (pqsUnparsable.get_equivalent_quantities "q").find? (fun x => x.is_parsable) = none ∧
    setLoop pqsUnparsable nodeNoRetrieve ["q"] ([], []) =
      setLoop pqsUnparsable nodeNoRetrieve [] ([],
        [] ++ PWarning.missingFiles "q" (pqsUnparsable.get_missing_files "q") ::
          (match (pqsUnparsable.get_missing_files "q").reverse.find?
              (fun f => !(nodeNoRetrieve.retrieve_temporary_list ++
                nodeNoRetrieve.retrieve_list).contains f) with
           | some f => [PWarning.notInRetrieveList f]
           | none => [])) :=
  ⟨rfl, rfl, unparsable_quantity_warnings pqsUnparsable nodeNoRetrieve "q"
    ⟨"q", "q", false⟩ ([], []) [] rfl rfl⟩

theorem altLoop_mem {a : Type} (quantity : Option ParsableQuantity) (parsed : PyDict a)
    (k : String) :
    ∀ (eqs : List ParsableQuantity) (acc r : PyDict a),
      altLoop quantity parsed eqs acc = .ok r → pyIn r k = true →
      pyIn acc k = true ∨
        ∃ q, quantity = some q ∧ q.name = k ∧
          ∃ e, e ∈ eqs ∧ pyIn parsed e.original_name = true := by
  cases quantity with
  | none =>
    intro eqs
    induction eqs with
    | nil =>
      intro acc r h hk
      cases h
      exact Or.inl hk
    | cons e rest ih =>
      intro acc r h hk
      by_cases he : pyIn parsed e.original_name = true
      · simp only [altLoop] at h
        rw [if_pos he] at h
        cases h
      · simp only [altLoop] at h
        rw [if_neg he] at h
        rcases ih acc r h hk with hin | ⟨q2, hq2, h2⟩
        · exact Or.inl hin
        · cases hq2
  | some q =>
    intro eqs
    induction eqs with
    | nil =>
      intro acc r h hk
      cases h
      exact Or.inl hk
    | cons e rest ih =>
      intro acc r h hk
      by_cases he : pyIn parsed e.original_name = true
      · simp only [altLoop] at h
        rw [if_pos he] at h
        rcases ih _ r h hk with hin | ⟨q2, hq2, hk2, e2, he2, hp2⟩
        · rw [pyIn_setKey] at hin
          cases hnk : (q.name == k) with
          | true => exact Or.inr ⟨q, rfl, eq_of_beq hnk, e, List.mem_cons_self e rest, he⟩
          | false =>
            rw [hnk] at hin
            exact Or.inl (by simpa using hin)
        · exact Or.inr ⟨q2, hq2, hk2, e2, List.mem_cons_of_mem e he2, hp2⟩
      · simp only [altLoop] at h
        rw [if_neg he] at h
        rcases ih acc r h hk with hin | ⟨q2, hq2, hk2, e2, he2, hp2⟩
        · exact Or.inl hin
        · exact Or.inr ⟨q2, hq2, hk2, e2, List.mem_cons_of_mem e he2, hp2⟩

theorem altLoop_none_present {a : Type} (quantity : Option ParsableQuantity) (parsed : PyDict a) :
    ∀ (eqs : List ParsableQuantity) (acc : PyDict a),
      (∀ e, e ∈ eqs → pyIn parsed e.original_name = false) →
      altLoop quantity parsed eqs acc = .ok acc := by
  intro eqs
  induction eqs with
  | nil => intro acc _; rfl
  | cons e rest ih =>
    intro acc hall
    have he : pyIn parsed e.original_name = false := hall e (List.mem_cons_self e rest)
    simp only [altLoop]
    rw [if_neg (by simp [he])]
    exact ih acc (fun e2 h2 => hall e2 (List.mem_cons_of_mem e h2))

theorem altLoop_some_total {a : Type} (q : ParsableQuantity) (parsed : PyDict a) :
    ∀ (eqs : List ParsableQuantity) (acc : PyDict a),
      ∃ r, altLoop (some q) parsed eqs acc = .ok r := by
  intro eqs
  induction eqs with
  | nil => intro acc; exact ⟨acc, rfl⟩
  | cons e rest ih =>
    intro acc
    by_cases he : pyIn parsed e.original_name = true
    · obtain ⟨r, hr⟩ := ih (setKey acc q.name (pyGet parsed e.original_name))
      refine ⟨r, ?_⟩
      simp only [altLoop]
      rw [if_pos he]
      exact hr
    · obtain ⟨r, hr⟩ := ih acc
      refine ⟨r, ?_⟩
      simp only [altLoop]
      rw [if_neg he]
      exact hr

theorem altLoop_some_value {a : Type} (q : ParsableQuantity) (parsed : PyDict a) :
    ∀ (eqs : List ParsableQuantity) (acc r : PyDict a),
      altLoop (some q) parsed eqs acc = .ok r →
      (∃ e, e ∈ eqs ∧ pyIn parsed e.original_name = true) →
      ∃ e, e ∈ eqs ∧ pyIn parsed e.original_name = true ∧
        r = setKey acc q.name (pyGet parsed e.original_name) := by
  intro eqs
  induction eqs with
  | nil =>
    intro acc r _ hex
    obtain ⟨e, he, _⟩ := hex
    cases he
  | cons e rest ih =>
    intro acc r h hex
    by_cases he : pyIn parsed e.original_name = true
    · simp only [altLoop] at h
      rw [if_pos he] at h
      by_cases hrest : ∃ e2, e2 ∈ rest ∧ pyIn parsed e2.original_name = true
      · obtain ⟨e2, he2, hp2, hr2⟩ := ih _ r h hrest
        rw [setKey_setKey] at hr2
        exact ⟨e2, List.mem_cons_of_mem e he2, hp2, hr2⟩
      · have hall : ∀ e2, e2 ∈ rest → pyIn parsed e2.original_name = false := by
          intro e2 h2
          by_contra hc
          exact hrest ⟨e2, h2, by simpa using hc⟩
        rw [altLoop_none_present (some q) parsed rest _ hall] at h
        cases h
        exact ⟨e, List.mem_cons_self e rest, he, rfl⟩
    · simp only [altLoop] at h
      rw [if_neg he] at h
      have hex2 : ∃ e2, e2 ∈ rest ∧ pyIn parsed e2.original_name = true := by
        obtain ⟨e2, he2, hp2⟩ := hex
        cases List.mem_cons.mp he2 with
        | inl heq => rw [heq] at hp2; exact absurd hp2 he
        | inr hmem => exact ⟨e2, hmem, hp2⟩
      obtain ⟨e2, he2, hp2, hr2⟩ := ih acc r h hex2
      exact ⟨e2, List.mem_cons_of_mem e he2, hp2, hr2⟩

theorem collectStep_mem {a : Type} (pqs : ParsableQuantities) (parsed : PyDict a)
    (k : String) (acc out : PyDict a) (n : String)
    (h : collectStep pqs parsed acc n = .ok out) (hk : pyIn out k = true) :
    pyIn acc k = true ∨
      ∃ q, pqs.get_by_name n = some q ∧ q.name = k ∧
        (pyGet parsed n ≠ none ∨
          ∃ e, e ∈ pqs.get_equivalent_quantities n ∧ pyIn parsed e.original_name = true) := by
  simp only [collectStep] at h
  cases hv : pyGet parsed n with
  | some v =>
    rw [hv] at h
    cases hq : pqs.get_by_name n with
    | none => rw [hq] at h; cases h
    | some q =>
      rw [hq] at h
      cases h
      rw [pyIn_setKey] at hk
      cases hnk : (q.name == k) with
      | true =>
        exact Or.inr ⟨q, rfl, eq_of_beq hnk, Or.inl (by simp)⟩
      | false =>
        rw [hnk] at hk
        exact Or.inl (by simpa using hk)
  | none =>
    rw [hv] at h
    cases halt : _get_alternative_parsed_quantity n (pqs.get_by_name n) pqs parsed with
    | error e => rw [halt] at h; cases h
    | ok alt =>
      rw [halt] at h
      cases h
      rw [pyIn_updateD] at hk
      cases hacc : pyIn acc k with
      | true => exact Or.inl rfl
      | false =>
        rw [hacc] at hk
        have halt2 : pyIn alt k = true := by simpa using hk
        have := altLoop_mem (pqs.get_by_name n) parsed k
          (pqs.get_equivalent_quantities n) [] alt halt halt2
        rcases this with hin | ⟨q, hq, hk2, e, he, hp⟩
        · simp [pyIn] at hin
        · exact Or.inr ⟨q, hq, hk2, Or.inr ⟨e, he, hp⟩⟩

theorem collectLoop_mem {a : Type} (pqs : ParsableQuantities) (parsed : PyDict a) (k : String) :
    ∀ (names : List String) (acc inputs : PyDict a),
      collectLoop pqs parsed names acc = .ok inputs → pyIn inputs k = true →
      pyIn acc k = true ∨
        ∃ n, n ∈ names ∧ ∃ q, pqs.get_by_name n = some q ∧ q.name = k ∧
          (pyGet parsed n ≠ none ∨
            ∃ e, e ∈ pqs.get_equivalent_quantities n ∧ pyIn parsed e.original_name = true) := by
  intro names
  induction names with
  | nil =>
    intro acc inputs h hk
    cases h
    exact Or.inl hk
  | cons n rest ih =>
    intro acc inputs h hk
    simp only [collectLoop] at h
    cases hstep : collectStep pqs parsed acc n with
    | error e => rw [hstep] at h; cases h
    | ok acc2 =>
      rw [hstep] at h
      rcases ih acc2 inputs h hk with hin | ⟨n2, hn2, q, hq, hk2, hcond⟩
      · rcases collectStep_mem pqs parsed k acc acc2 n hstep hin with hin2 | ⟨q, hq, hk2, hcond⟩
        · exact Or.inl hin2
        · exact Or.inr ⟨n, List.mem_cons_self n rest, q, hq, hk2, hcond⟩
      · exact Or.inr ⟨n2, List.mem_cons_of_mem n hn2, q, hq, hk2, hcond⟩


/-- C1 counterexample: quantity `q` is requested; neither `q` nor its
declared equivalent `e` has a non-null parsed value, but `e` is present as a
key of the parsed table with stored value `None`.  The claim requires `q` to
be omitted from the collected inputs; instead the code inserts the key `q`
with a null value. -/
theorem collect_null_equivalent_inserted :
    get_node_composer_inputs pqsQE parsedNullE none (some ["q"]) =
      Except.ok [("q", (none : Option Nat))] ∧
    pyGet parsedNullE "q" = none ∧
    pyGet parsedNullE "e" = none ∧
    pyIn [("q", (none : Option Nat))] "q" = true :=
  ⟨rfl, rfl, rfl, rfl⟩

/-- C1 amended: a requested quantity appears in the inputs collected by
`get_node_composer_inputs` only if the requested name has a non-null parsed
value or one of its declared equivalents is present as a key of the
parsed-quantity table — key presence suffices even when the stored value is
null, in which case the null value is inserted; when the requested name's
value is null and no equivalent key is present, the quantity is omitted (no
key, no default value). -/
theorem collect_only_if_present {a : Type} (pqs : ParsableQuantities) (parsed : PyDict a)
    (names : List String) (inputs : PyDict a) (k : String)
    (h : get_node_composer_inputs pqs parsed none (some names) = Except.ok inputs)
    (hk : pyIn inputs k = true) :
    ∃ n, n ∈ names ∧ ∃ q, pqs.get_by_name n = some q ∧ q.name = k ∧
      (pyGet parsed n ≠ none ∨
        ∃ e, e ∈ pqs.get_equivalent_quantities n ∧ pyIn parsed e.original_name = true) := by
  rcases collectLoop_mem pqs parsed k names [] inputs h hk with hin | hex
  · simp [pyIn] at hin
  · exact hex

/-- C1 amended, witness: the key `q` appears because equivalent `e` is
present with value `5`. -/
theorem collect_only_if_present_witness :
    get_node_composer_inputs pqsQE parsedFiveE none (some ["q"]) =
      Except.ok [("q", (some 5 : Option Nat))] ∧
    (∃ n, n ∈ ["q"] ∧ ∃ q, pqsQE.get_by_name n = some q ∧ q.name = "q" ∧
      (pyGet parsedFiveE n ≠ none ∨
        ∃ e, e ∈ pqsQE.get_equivalent_quantities n ∧ pyIn parsedFiveE e.original_name = true)) :=
  ⟨rfl, collect_only_if_present pqsQE parsedFiveE ["q"] [("q", some 5)] "q" rfl rfl⟩

/-- C2: when a requested quantity's own entry in the parsed table is absent
(`None`) but some declared equivalent is present, the collected inputs store
an equivalent's parsed value under the primary quantity's output key. -/
theorem collect_equivalent_under_primary_key {a : Type} (pqs : ParsableQuantities)
    (parsed : PyDict a) (n : String) (q e0 : ParsableQuantity)
    (hq : pqs.get_by_name n = some q)
    (hnone : pyGet parsed n = none)
    (he0 : e0 ∈ pqs.get_equivalent_quantities n)
    (hp0 : pyIn parsed e0.original_name = true) :
    ∃ inputs, get_node_composer_inputs pqs parsed none (some [n]) = Except.ok inputs ∧
      ∃ e, e ∈ pqs.get_equivalent_quantities n ∧ pyIn parsed e.original_name = true ∧
        pyGetD inputs q.name = some (pyGet parsed e.original_name) := by
  obtain ⟨r, hr⟩ := altLoop_some_total q parsed (pqs.get_equivalent_quantities n) []
  obtain ⟨e, he, hpe, hre⟩ :=
    altLoop_some_value q parsed (pqs.get_equivalent_quantities n) [] r hr ⟨e0, he0, hp0⟩
  have halt : _get_alternative_parsed_quantity n (pqs.get_by_name n) pqs parsed = .ok r := by
    rw [hq]
    exact hr
  have hstep : collectStep pqs parsed [] n = .ok (updateD [] r) := by
    simp only [collectStep, hnone, halt]
  refine ⟨updateD [] r, ?_, e, he, hpe, ?_⟩
  · show collectLoop pqs parsed [n] [] = _
    simp only [collectLoop, hstep]
  · rw [hre]
    simp [updateD, setKey, pyGetD]

/-- C2, witness: equivalent `e` present with value `5` is stored under the
primary key `q`. -/
theorem collect_equivalent_under_primary_key_witness :
    ∃ inputs, get_node_composer_inputs pqsQE parsedFiveE none (some ["q"]) = Except.ok inputs ∧
      ∃ e, e ∈ pqsQE.get_equivalent_quantities "q" ∧ pyIn parsedFiveE e.original_name = true ∧
        pyGetD inputs (ParsableQuantity.mk "q" "q" true).name =
          some (pyGet parsedFiveE e.original_name) :=
  collect_equivalent_under_primary_key pqsQE parsedFiveE "q" ⟨"q", "q", true⟩ ⟨"e", "e", true⟩
    rfl rfl (by simp [pqsQE]) rfl


end AiidaVasp
